import Mathlib

/-
Shallow embedding of the session audio recorder in
src/main/xiaozhi-server/core/utils/audio_recording.py.

Strings are modelled as lists of characters (`Str`).  External effects
(filesystem calls, the opus decoder, the wall clock, the ffmpeg lookup and
invocation) are modelled by an oracle `Env` that fixes, for one call into the
recorder, the current local time, the current epoch and the success or failure
of each external operation.  Operations that the Python code does not guard
with try/except propagate a `PyExn`; operations whose failures the code
swallows are total.  The filesystem is an association list from paths to the
number of payload bytes written, and every recorder operation additionally
reports the list of filesystem actions it attempted (`FsEv`).
-/

set_option maxRecDepth 4096

namespace AudioRec

/-- Python strings, modelled as lists of characters. -/
abbrev Str := List Char

/-- The character class `[a-zA-Z0-9._-]` of `sanitize_device_id`'s regex. -/
def isValidIdChar (c : Char) : Bool :=
  decide (('a' ≤ c ∧ c ≤ 'z') ∨ ('A' ≤ c ∧ c ≤ 'Z') ∨ ('0' ≤ c ∧ c ≤ '9') ∨
    c = '.' ∨ c = '_' ∨ c = '-')

/-- The ASCII whitespace characters stripped by Python's `str.strip()`
(the model restricts itself to the ASCII whitespace set). -/
def isSpaceChar (c : Char) : Bool :=
  decide (c = ' ' ∨ c = '\t' ∨ c = '\n' ∨ c = '\r' ∨
    c = Char.ofNat 11 ∨ c = Char.ofNat 12)

/-- Remove trailing characters satisfying `p`. -/
def dropTrailing (p : Char → Bool) (s : Str) : Str :=
  ((s.reverse).dropWhile p).reverse

/-- Python `device_id.strip()`: drop leading and trailing whitespace. -/
def pyStrip (s : Str) : Str :=
  dropTrailing isSpaceChar (s.dropWhile isSpaceChar)

/-- Python `re.sub(r"[^a-zA-Z0-9._-]+", "_", s)`: every maximal run of
characters outside the class is replaced by a single underscore.  The flag
records whether the previous character was part of an invalid run. -/
def subInvalidRuns : Str → Bool → Str
  | [], _ => []
  | c :: cs, inRun =>
    if isValidIdChar c then c :: subInvalidRuns cs false
    else if inRun then subInvalidRuns cs true
    else '_' :: subInvalidRuns cs true

/-- `sanitize_device_id` from audio_recording.py. -/
def sanitize_device_id (device_id : Str) : Str :=
  if device_id = [] then "unknown".toList
  else
    let stripped := pyStrip device_id
    let safe := subInvalidRuns stripped false
    if safe = [] then "unknown".toList else safe

/-! ### Decimal formatting (for strftime fields, indices and durations) -/

/-- The decimal digit character for `n` (expects `n ≤ 9`). -/
def digitChar (n : Nat) : Char :=
  if n = 0 then '0' else if n = 1 then '1' else if n = 2 then '2'
  else if n = 3 then '3' else if n = 4 then '4' else if n = 5 then '5'
  else if n = 6 then '6' else if n = 7 then '7' else if n = 8 then '8' else '9'

/-- Fuelled decimal rendering, most significant digit first. -/
def natDigitsAux : Nat → Nat → Str
  | 0, _ => []
  | fuel + 1, n =>
    if n < 10 then [digitChar n]
    else natDigitsAux fuel (n / 10) ++ [digitChar (n % 10)]

/-- Decimal rendering of a natural number (`str(n)` in Python).  Fuel `n + 1`
always suffices since the number of digits of `n` is at most `n + 1`. -/
def natDigits (n : Nat) : Str := natDigitsAux (n + 1) n

/-- Decimal rendering of a Python integer. -/
def intToStr (i : Int) : Str :=
  if i < 0 then '-' :: natDigits (-i).toNat else natDigits i.toNat

/-- Zero-padded decimal rendering of width `w` (strftime-style). -/
def padNum (w n : Nat) : Str :=
  List.replicate (w - (natDigits n).length) '0' ++ natDigits n

/-! ### Calendar model for Python `datetime` arithmetic -/

/-- A civil (proleptic Gregorian) calendar date, as held by a Python
`datetime.date`. -/
structure PyDate where
  year : Nat
  month : Nat
  day : Nat
deriving Repr, DecidableEq

/-- A local civil datetime: a date plus the number of seconds elapsed since
midnight of that date. -/
structure PyDateTime where
  date : PyDate
  sod : Nat
deriving Repr, DecidableEq

/-- Gregorian leap-year rule. -/
def isLeapYear (y : Nat) : Bool :=
  (y % 4 == 0 && !(y % 100 == 0)) || (y % 400 == 0)

/-- Days in a Gregorian month (months outside 1..12 default to 31 and are
never produced by well-formed dates). -/
def daysInMonth (y m : Nat) : Nat :=
  if m = 2 then (if isLeapYear y then 29 else 28)
  else if m = 4 ∨ m = 6 ∨ m = 9 ∨ m = 11 then 30
  else 31

/-- The calendar day after `d`. -/
def nextDay (d : PyDate) : PyDate :=
  if d.day < daysInMonth d.year d.month then ⟨d.year, d.month, d.day + 1⟩
  else if d.month < 12 then ⟨d.year, d.month + 1, 1⟩
  else ⟨d.year + 1, 1, 1⟩

/-- Advance a date by `n` calendar days. -/
def addDays : PyDate → Nat → PyDate
  | d, 0 => d
  | d, n + 1 => addDays (nextDay d) n

/-- Python `dt + timedelta(seconds = s)` on an aware local datetime
(civil addition; the tzinfo is unchanged and plays no role here). -/
def addSeconds (dt : PyDateTime) (s : Nat) : PyDateTime :=
  let t := dt.sod + s
  ⟨addDays dt.date (t / 86400), t % 86400⟩

/-- strftime `%H%M%S` of a datetime with seconds-of-day `sod`. -/
def fmtHMS (sod : Nat) : Str :=
  padNum 2 (sod / 3600) ++ padNum 2 (sod % 3600 / 60) ++ padNum 2 (sod % 60)

/-- strftime `%Y%m%d` of a date. -/
def fmtYmd (d : PyDate) : Str :=
  padNum 4 d.year ++ padNum 2 d.month ++ padNum 2 d.day

/-- strftime `%Y-%m-%d` of a date (the per-day directory name). -/
def fmtDateDashed (d : PyDate) : Str :=
  padNum 4 d.year ++ '-' :: (padNum 2 d.month ++ '-' :: padNum 2 d.day)

/-- strftime `%Y%m%d_%H%M%S` (the filename timestamp). -/
def fmtTs (dt : PyDateTime) : Str :=
  fmtYmd dt.date ++ '_' :: fmtHMS dt.sod

/-- `AudioRecorder._time_range_label`: `%H%M%S-%H%M%S` when start and end fall
on the same calendar day, `%Y%m%d%H%M%S-%Y%m%d%H%M%S` when the range crosses a
day boundary. -/
def timeRangeLabel (startDt endDt : PyDateTime) : Str :=
  if startDt.date ≠ endDt.date then
    (fmtYmd startDt.date ++ fmtHMS startDt.sod) ++
      '-' :: (fmtYmd endDt.date ++ fmtHMS endDt.sod)
  else fmtHMS startDt.sod ++ '-' :: fmtHMS endDt.sod

/-! ### Paths and the abstract filesystem -/

/-- `os.path.join(a, b)` for the relative components the recorder builds. -/
def pathJoin (a b : Str) : Str := a ++ '/' :: b

/-- Index of the last occurrence of `c` in `p`, if any
(Python `p.rfind(c)` restricted to found/not-found). -/
def lastIdxOf (c : Char) (p : Str) : Option Nat :=
  match p.reverse.findIdx? (fun x => x == c) with
  | none => none
  | some k => some (p.length - 1 - k)

/-- `os.path.splitext`: split at the last dot, provided it lies after the last
path separator and is not part of a leading run of dots in the basename. -/
def splitext (p : Str) : Str × Str :=
  match lastIdxOf '.' p with
  | none => (p, [])
  | some di =>
    let fi : Nat := match lastIdxOf '/' p with
      | none => 0
      | some si => si + 1
    if fi ≤ di ∧ ((p.drop fi).take (di - fi)).any (fun x => x ≠ '.') then
      (p.take di, p.drop di)
    else (p, [])

/-- Filesystem actions the recorder attempts (an action is recorded whether or
not the oracle lets it succeed). -/
inductive FsEv where
  | mkdir (p : Str)
  | openW (p : Str)
  | write (p : Str) (n : Nat)
  | closeW
  | remove (p : Str)
  | rename (src dst : Str)
  | ffmpegRun (src dst : Str)
deriving Repr, DecidableEq

/-- The filesystem: an association list from paths to payload byte counts. -/
abbrev Fs := List (Str × Nat)

def fsLookup : Fs → Str → Option Nat
  | [], _ => none
  | e :: t, p => if e.1 = p then some e.2 else fsLookup t p

def fsErase : Fs → Str → Fs
  | [], _ => []
  | e :: t, p => if e.1 = p then fsErase t p else e :: fsErase t p

/-- Create or overwrite the file at `p` with `c` payload bytes. -/
def fsInsert (fs : Fs) (p : Str) (c : Nat) : Fs := (p, c) :: fsErase fs p

/-- Append `n` payload bytes to the file at `p`. -/
def fsAppend (fs : Fs) (p : Str) (n : Nat) : Fs :=
  match fsLookup fs p with
  | some c => fsInsert fs p (c + n)
  | none => fsInsert fs p n

/-- `os.replace src dst` (no-op when the source does not exist; the code only
ever renames files it created). -/
def fsMove (fs : Fs) (src dst : Str) : Fs :=
  match fsLookup fs src with
  | some c => fsInsert (fsErase fs src) dst c
  | none => fs

/-! ### The recorder data model -/

/-- `RecordingConfig` from audio_recording.py.  Numeric fields are Python
ints, hence `Int`. -/
structure RecordingConfig where
  enabled : Bool
  root_dir : Str
  segment_seconds : Int
  sample_rate : Int
  channels : Int
  mp3_bitrate : Str
  ffmpeg_path : Str
  keep_wav : Bool
deriving Repr, DecidableEq

/-- The immutable identity of one `AudioRecorder` instance, fixed by
`__init__`. -/
structure RecorderCtx where
  config : RecordingConfig
  device_id : Str
  device_dir : Str
  session_id : Str
deriving Repr, DecidableEq

/-- The mutable state of one `AudioRecorder` instance.  `decoder` holds the
allocation id of the opus decoder object, if one has been constructed;
`decoderCtorCount` is a ghost counter of successful decoder constructions.
`wavFp` is the open wave handle, represented by the path the handle writes
to. -/
structure RecState where
  decoder : Option Nat
  decoderCtorCount : Nat
  wavFp : Option Str
  wavPath : Option Str
  framesWritten : Nat
  segmentIndex : Nat
  segmentStartEpoch : Option Int
deriving Repr, DecidableEq

/-- The exception kinds that can escape recorder methods (any uncaught Python
OSError / wave.Error collapses to this one constructor). -/
inductive PyExn where
  | osError
deriving Repr, DecidableEq

/-- The oracle for one call into the recorder: the wall clock and the success
or failure of every external operation the call might attempt. -/
structure Env where
  now : PyDateTime
  epochNow : Int
  mkdirRootOk : Bool
  mkdirDeviceOk : Bool
  openOk : Bool
  writeOk : Bool
  removeOk : Bool
  renameOk : Bool
  whichOk : Bool
  ffmpegOk : Bool
  decoderCtorOk : Bool
  decodeOk : Bool
  decodeLen : Nat
deriving Repr, DecidableEq

/-- The result of a recorder operation that cannot raise: next state, next
filesystem, attempted filesystem actions. -/
abbrev RecStep := RecState × Fs × List FsEv

/-- `AudioRecorder.__init__`. -/
def mkRecorder (config : RecordingConfig) (device_id session_id : Str) :
    RecorderCtx × RecState :=
  (⟨config, device_id, sanitize_device_id device_id, session_id⟩,
   ⟨none, 0, none, none, 0, 0, none⟩)

/-- The rotation threshold `segment_seconds * sample_rate` (Python int
arithmetic). -/
def thresholdFrames (cfg : RecordingConfig) : Int :=
  cfg.segment_seconds * cfg.sample_rate

/-- Frame-count increment of `_write_pcm` for a frame of byte length `L`:
Python `len(pcm_frame) // 2 // max(channels, 1)` after odd-byte trimming. -/
def pcmFrameInc (cfg : RecordingConfig) (L : Nat) : Nat :=
  (L - L % 2) / 2 / (max cfg.channels 1).toNat

/-- `AudioRecorder._ensure_segment_open`.  `os.makedirs` and `wave.open` are
unguarded in the source, so their failures raise. -/
def ensure_segment_open (ctx : RecorderCtx) (env : Env) (st : RecState)
    (fs : Fs) : Except PyExn RecStep :=
  match st.wavFp with
  | some _ => .ok (st, fs, [])
  | none =>
    if env.mkdirRootOk = false then .error .osError else
    let dateDir := fmtDateDashed env.now.date
    let deviceRoot := pathJoin (pathJoin ctx.config.root_dir ctx.device_dir) dateDir
    if env.mkdirDeviceOk = false then .error .osError else
    let epoch := env.epochNow
    let ts := fmtTs env.now
    let endDt := addSeconds env.now (max ctx.config.segment_seconds 1).toNat
    let rangeLabel := timeRangeLabel env.now endDt
    let baseName :=
      ts ++ '_' :: (intToStr epoch ++ '_' :: (ctx.session_id ++
        '_' :: (natDigits st.segmentIndex ++ '_' :: rangeLabel)))
    let wavPath := pathJoin deviceRoot (baseName ++ ".wav".toList)
    if env.openOk = false then .error .osError else
    .ok ({ st with wavFp := some wavPath
                   wavPath := some wavPath
                   framesWritten := 0
                   segmentStartEpoch := some epoch },
         fsInsert fs wavPath 0,
         [FsEv.mkdir ctx.config.root_dir, FsEv.mkdir deviceRoot,
          FsEv.openW wavPath])

/-- `AudioRecorder._write_pcm`.  `writeframes` is unguarded in the source, so
its failure raises; the odd trailing byte is dropped first and an emptied
frame is discarded before any write is attempted. -/
def write_pcm (ctx : RecorderCtx) (env : Env) (st : RecState) (fs : Fs)
    (L : Nat) : Except PyExn RecStep :=
  match st.wavFp with
  | none => .ok (st, fs, [])
  | some hp =>
    let L1 := L - L % 2
    if L1 = 0 then .ok (st, fs, [])
    else if env.writeOk = false then .error .osError
    else
      .ok ({ st with framesWritten := st.framesWritten + pcmFrameInc ctx.config L },
           fsAppend fs hp L1, [FsEv.write hp L1])

/-- `AudioRecorder._decode_opus`: lazily construct the decoder, decode, and
swallow every exception into an empty result.  Returns the byte length of the
decoded PCM. -/
def decode_opus (env : Env) (st : RecState) : RecState × Nat :=
  match st.decoder with
  | some _ => (st, if env.decodeOk then env.decodeLen else 0)
  | none =>
    if env.decoderCtorOk then
      let st2 := { st with decoder := some st.decoderCtorCount
                           decoderCtorCount := st.decoderCtorCount + 1 }
      (st2, if env.decodeOk then env.decodeLen else 0)
    else (st, 0)

/-- The `_seg<N>s_len<M>ms` suffix inserted by `_finalize_segment`'s rename. -/
def segSuffix (cfg : RecordingConfig) (durMs : Nat) : Str :=
  "_seg".toList ++ intToStr cfg.segment_seconds ++ "s_len".toList ++
    natDigits durMs ++ "ms".toList

/-- The path `_finalize_segment` renames the raw wav file to. -/
def renamedWavPath (cfg : RecordingConfig) (p : Str) (durMs : Nat) : Str :=
  (splitext p).1 ++ segSuffix cfg durMs ++ (splitext p).2

/-- Actual duration in milliseconds:
`int((frames_written * 1000) / max(sample_rate, 1))`. -/
def actualDurationMs (cfg : RecordingConfig) (frames : Nat) : Nat :=
  frames * 1000 / (max cfg.sample_rate 1).toNat

/-- `AudioRecorder._finalize_segment`.  Every failure inside is swallowed in
the source, so this is total.  The recorder fields are cleared before any
filesystem action is attempted, exactly as in the source. -/
def finalize_segment (ctx : RecorderCtx) (env : Env) (st : RecState) (fs : Fs)
    (convert_even_if_short : Bool) : RecStep :=
  match st.wavFp, st.wavPath with
  | some _, some wavPath =>
    let framesWritten := st.framesWritten
    let durMs := actualDurationMs ctx.config framesWritten
    let st1 := { st with wavFp := none
                         wavPath := none
                         framesWritten := 0
                         segmentStartEpoch := none }
    if framesWritten = 0 ∧ convert_even_if_short = false then
      (st1, if env.removeOk then fsErase fs wavPath else fs,
       [FsEv.closeW, FsEv.remove wavPath])
    else
      let renamed := renamedWavPath ctx.config wavPath durMs
      let (fs1, wavPath1, renTr) :=
        if renamed ≠ wavPath then
          (if env.renameOk then fsMove fs wavPath renamed else fs,
           if env.renameOk then renamed else wavPath,
           [FsEv.rename wavPath renamed])
        else (fs, wavPath, [])
      if env.whichOk = false then (st1, fs1, FsEv.closeW :: renTr)
      else
        let mp3 := (splitext wavPath1).1 ++ ".mp3".toList
        if env.ffmpegOk then
          let fs2 := fsInsert fs1 mp3 0
          if ctx.config.keep_wav = false then
            (st1, if env.removeOk then fsErase fs2 wavPath1 else fs2,
             FsEv.closeW :: renTr ++ [FsEv.ffmpegRun wavPath1 mp3, FsEv.remove wavPath1])
          else (st1, fs2, FsEv.closeW :: renTr ++ [FsEv.ffmpegRun wavPath1 mp3])
        else (st1, fs1, FsEv.closeW :: renTr ++ [FsEv.ffmpegRun wavPath1 mp3])
  | _, _ => (st, fs, [])

/-- `AudioRecorder._rotate_if_needed`. -/
def rotate_if_needed (ctx : RecorderCtx) (env : Env) (st : RecState)
    (fs : Fs) : RecStep :=
  if (st.framesWritten : Int) ≥ thresholdFrames ctx.config then
    let out := finalize_segment ctx env st fs false
    ({ out.1 with segmentIndex := out.1.segmentIndex + 1 }, out.2.1, out.2.2)
  else (st, fs, [])

/-- `AudioRecorder.close`. -/
def close (ctx : RecorderCtx) (env : Env) (st : RecState) (fs : Fs) : RecStep :=
  finalize_segment ctx env st fs true

/-- The packet format tag of `append_audio_packet` (`"pcm"` or anything
else, which is treated as opus). -/
inductive AudioFormat where
  | pcm
  | opus
deriving Repr, DecidableEq

/-- `AudioRecorder.append_audio_packet`.  `pkt` is the byte length of the
packet (the recorder inspects packets only through their length and the
decoder oracle). -/
def append_audio_packet (ctx : RecorderCtx) (env : Env) (st : RecState)
    (fs : Fs) (pkt : Nat) (fmt : AudioFormat) : Except PyExn RecStep :=
  if ctx.config.enabled = false then .ok (st, fs, [])
  else if pkt = 0 then .ok (st, fs, [])
  else
    match ensure_segment_open ctx env st fs with
    | .error e => .error e
    | .ok (st1, fs1, t1) =>
      match st1.wavFp with
      | none => .ok (st1, fs1, t1)
      | some _ =>
        match fmt with
        | .pcm =>
          match write_pcm ctx env st1 fs1 pkt with
          | .error e => .error e
          | .ok (st2, fs2, t2) =>
            let out := rotate_if_needed ctx env st2 fs2
            .ok (out.1, out.2.1, t1 ++ t2 ++ out.2.2)
        | .opus =>
          let (st2, pcmLen) := decode_opus env st1
          if pcmLen ≠ 0 then
            match write_pcm ctx env st2 fs1 pcmLen with
            | .error e => .error e
            | .ok (st3, fs3, t3) =>
              let out := rotate_if_needed ctx env st3 fs3
              .ok (out.1, out.2.1, t1 ++ t3 ++ out.2.2)
          else
            let out := rotate_if_needed ctx env st2 fs1
            .ok (out.1, out.2.1, t1 ++ out.2.2)

/-! ### Concrete fixtures used to instantiate theorems -/

/-- A concrete enabled configuration (the dataclass defaults with
`enabled := true`). -/
def sampleConfig : RecordingConfig :=
  ⟨true, "/recordings".toList, 180, 16000, 1, "64k".toList, "ffmpeg".toList, false⟩

/-- A concrete recorder built by `__init__`. -/
def sampleRec : RecorderCtx × RecState :=
  mkRecorder sampleConfig "AA:BB".toList "sess1".toList

/-- A concrete oracle on which every external operation succeeds. -/
def sampleEnv : Env :=
  ⟨⟨⟨2026, 10, 12⟩, 3600⟩, 1760000000,
   true, true, true, true, true, true, true, true, true, true, 1920⟩

/-- A concrete recorder state with an open segment holding `frames` frames. -/
def openSt (frames : Nat) : RecState :=
  ⟨none, 0, some "/r/a.wav".toList, some "/r/a.wav".toList, frames, 0,
   some 1760000000⟩

/-- A small configuration whose rotation threshold is 2 frames. -/
def c3Config : RecordingConfig :=
  { sampleConfig with segment_seconds := 1
                      sample_rate := 2 }

/-- A recorder over `c3Config`. -/
def c3Ctx : RecorderCtx := (mkRecorder c3Config "d".toList "s".toList).1

/-- Whether an `Except` result is a normal return. -/
def isOkE {α : Type} (e : Except PyExn α) : Bool :=
  match e with
  | .ok _ => true
  | .error _ => false

/-- The recorder state after `_finalize_segment` has cleared the segment
fields (lines 144-147 of the source, executed before any filesystem call). -/
def clearedSt (st : RecState) : RecState :=
  { st with wavFp := none
            wavPath := none
            framesWritten := 0
            segmentStartEpoch := none }

/-- A concrete recorder state with an open segment and an already-constructed
decoder (allocation id 0, one successful construction). -/
def c7StD : RecState :=
  ⟨some 0, 1, some "/r/a.wav".toList, some "/r/a.wav".toList, 0, 0,
   some 1760000000⟩

/-- The decoder-ownership invariant of a recorder: no construction has
happened while the decoder is absent, and once the decoder exists it is the
single decoder ever constructed (allocation id 0, construction count 1). -/
def DecoderInv (st : RecState) : Prop :=
  (st.decoder = none → st.decoderCtorCount = 0) ∧
  (∀ d, st.decoder = some d → st.decoderCtorCount = 1 ∧ d = 0)

/-- Well-formedness of a civil date as Python `datetime.date` maintains it
(weakened to the bounds the filename-format arguments need). -/
def WFDate (d : PyDate) : Prop :=
  1 ≤ d.month ∧ d.month ≤ 12 ∧ 1 ≤ d.day ∧ d.day ≤ 31

/-- The state `append_audio_packet` must leave behind after an accepted PCM
frame of length `L` lands in an open segment: the segment rotates (closes,
sequence index advances) exactly when the accumulated frame count reaches the
threshold, and otherwise only the frame counter advances. -/
def c3Expected (ctx : RecorderCtx) (st : RecState) (L : Nat) : RecState :=
  if ((st.framesWritten + pcmFrameInc ctx.config L : Nat) : Int) ≥
      thresholdFrames ctx.config
  then { clearedSt st with segmentIndex := st.segmentIndex + 1 }
  else { st with framesWritten := st.framesWritten + pcmFrameInc ctx.config L }

/-! ### Helper lemmas: sanitization -/

lemma isValidIdChar_underscore : isValidIdChar '_' = true := by decide

lemma subInvalidRuns_all_valid (s : Str) :
    ∀ b, (subInvalidRuns s b).all isValidIdChar = true := by
  induction s with
  | nil => intro b; rfl
  | cons c cs ih =>
    intro b
    by_cases h : isValidIdChar c = true
    · simp [subInvalidRuns, h, ih]
    · cases b <;>
        simp [subInvalidRuns, h, ih, isValidIdChar_underscore]

lemma subInvalidRuns_ne_nil (s : Str) (hs : s ≠ []) :
    subInvalidRuns s false ≠ [] := by
  match s, hs with
  | c :: cs, _ =>
    by_cases h : isValidIdChar c = true <;> simp [subInvalidRuns, h]

lemma pyStrip_of_all_space (s : Str) (h : s.all isSpaceChar = true) :
    pyStrip s = [] := by
  have h1 : s.dropWhile isSpaceChar = [] := by
    rw [List.dropWhile_eq_nil_iff]
    intro x hx
    exact List.all_eq_true.mp h x hx
  simp [pyStrip, h1, dropTrailing]

/-- C2 counterexample: the input `"#"` contains no character of the class
`[a-zA-Z0-9._-]`, yet `sanitize_device_id` returns `"_"` (the invalid run is
collapsed to an underscore, which is truthy), not `"unknown"`. -/
theorem c2_counterexample :
    sanitize_device_id ['#'] = ['_'] ∧
    (['#'].all isValidIdChar) = false ∧
    sanitize_device_id ['#'] ≠ "unknown".toList := by
  refine ⟨by decide, by decide, by decide⟩

/-- C2 (amended): every output of `sanitize_device_id` is nonempty and
consists only of characters in `[a-zA-Z0-9._-]` (so it matches
`^[a-zA-Z0-9._-]+$`), and every input that is empty or consists only of
whitespace yields exactly `"unknown"`; an input containing invalid
non-whitespace characters only yields `"_"`, not `"unknown"`. -/
theorem c2_sanitize_charset (s : Str) :
    (sanitize_device_id s).all isValidIdChar = true ∧
    sanitize_device_id s ≠ [] ∧
    (s.all isSpaceChar = true → sanitize_device_id s = "unknown".toList) := by
  refine ⟨?_, ?_, ?_⟩
  · unfold sanitize_device_id
    by_cases h0 : s = []
    · simp [h0]; decide
    · simp only [h0, if_false]
      by_cases h1 : subInvalidRuns (pyStrip s) false = []
      · simp [h1]; decide
      · simp [h1, subInvalidRuns_all_valid]
  · unfold sanitize_device_id
    by_cases h0 : s = []
    · simp [h0]
    · simp only [h0, if_false]
      by_cases h1 : subInvalidRuns (pyStrip s) false = []
      · simp [h1]
      · simp [h1]
  · intro hsp
    unfold sanitize_device_id
    by_cases h0 : s = []
    · simp [h0]
    · have h1 : pyStrip s = [] := pyStrip_of_all_space s hsp
      simp [h0, h1, subInvalidRuns]

/-! ### Helper lemmas: success conditions of the raising operations -/

lemma exists_ok_of_isOkE {α : Type} {e : Except PyExn α}
    (h : isOkE e = true) : ∃ out, e = .ok out := by
  match e, h with
  | .ok v, _ => exact ⟨v, rfl⟩

lemma ensure_segment_open_ok (ctx : RecorderCtx) (env : Env) (st : RecState)
    (fs : Fs) (h1 : env.mkdirRootOk = true) (h2 : env.mkdirDeviceOk = true)
    (h3 : env.openOk = true) :
    ∃ out, ensure_segment_open ctx env st fs = .ok out := by
  apply exists_ok_of_isOkE
  unfold ensure_segment_open
  rcases hw : st.wavFp with _ | q
  · simp only [hw]
    simp [h1, h2, h3, isOkE]
  · simp only [hw]
    rfl

lemma write_pcm_ok (ctx : RecorderCtx) (env : Env) (st : RecState) (fs : Fs)
    (L : Nat) (h : env.writeOk = true) :
    ∃ out, write_pcm ctx env st fs L = .ok out := by
  apply exists_ok_of_isOkE
  unfold write_pcm
  rcases hw : st.wavFp with _ | hp
  · simp only [hw]
    rfl
  · simp only [hw]
    by_cases h0 : L - L % 2 = 0
    · simp [h0, isOkE]
    · simp [h0, h, isOkE]

/-- C1 counterexample: with recording enabled and a nonempty packet, a failure
of `os.makedirs` inside `_ensure_segment_open` (which the source does not
guard) propagates out of `append_audio_packet` as an exception. -/
theorem c1_counterexample :
    sampleConfig.enabled = true ∧
    append_audio_packet sampleRec.1 { sampleEnv with mkdirRootOk := false }
      sampleRec.2 [] 320 .pcm = .error .osError := by
  exact ⟨rfl, rfl⟩

/-- C1 (amended): `append_audio_packet` is a silent no-op (no state change,
no filesystem action, no exception) whenever recording is disabled or the
packet is empty, and it returns normally for every packet and format whenever
directory creation, file opening and file writing succeed (decode failures
and all finalize-time filesystem failures are absorbed); but an exception
raised by directory creation, file opening or a file write does propagate to
the caller. -/
theorem c1_append_error_policy (ctx : RecorderCtx) (env : Env) (st : RecState)
    (fs : Fs) (pkt : Nat) (fmt : AudioFormat) :
    ((ctx.config.enabled = false ∨ pkt = 0) →
      append_audio_packet ctx env st fs pkt fmt = .ok (st, fs, [])) ∧
    (env.mkdirRootOk = true → env.mkdirDeviceOk = true → env.openOk = true →
      env.writeOk = true →
      ∃ out, append_audio_packet ctx env st fs pkt fmt = .ok out) := by
  constructor
  · intro h
    unfold append_audio_packet
    rcases h with h | h
    · simp [h]
    · by_cases he : ctx.config.enabled = false
      · simp [he]
      · simp [he, h]
  · intro h1 h2 h3 h4
    apply exists_ok_of_isOkE
    unfold append_audio_packet
    by_cases he : ctx.config.enabled = false
    · simp [he, isOkE]
    · by_cases hp : pkt = 0
      · simp [he, hp, isOkE]
      · simp only [he, hp, if_false, if_neg]
        obtain ⟨⟨st1, fs1, t1⟩, hout1⟩ := ensure_segment_open_ok ctx env st fs h1 h2 h3
        rw [hout1]
        rcases hfp : st1.wavFp with _ | q
        · simp only [hfp]
          simp [isOkE]
        · simp only [hfp]
          cases fmt with
          | pcm =>
            obtain ⟨⟨st2, fs2, t2⟩, hout2⟩ := write_pcm_ok ctx env st1 fs1 pkt h4
            rw [hout2]
            simp [isOkE]
          | opus =>
            by_cases hl : (decode_opus env st1).2 = 0
            · simp [hl, isOkE]
            · simp only [hl]
              obtain ⟨⟨st3, fs3, t3⟩, hout3⟩ :=
                write_pcm_ok ctx env (decode_opus env st1).1 fs1 (decode_opus env st1).2 h4
              rw [hout3]
              simp [isOkE, hl]

/-- C1 witness: the amended theorem applied at a concrete recorder: a
disabled-recorder call is an exact no-op, and an enabled call with every
filesystem operation succeeding returns normally. -/
theorem c1_append_error_policy_witness :
    (append_audio_packet
      (mkRecorder { sampleConfig with enabled := false } "d".toList "s".toList).1
      sampleEnv
      (mkRecorder { sampleConfig with enabled := false } "d".toList "s".toList).2
      [] 320 .pcm =
      .ok ((mkRecorder { sampleConfig with enabled := false } "d".toList "s".toList).2, [], [])) ∧
    (∃ out, append_audio_packet sampleRec.1 sampleEnv sampleRec.2 [] 320 .pcm = .ok out) := by
  constructor
  · exact (c1_append_error_policy _ sampleEnv _ [] 320 .pcm).1 (Or.inl rfl)
  · exact (c1_append_error_policy sampleRec.1 sampleEnv sampleRec.2 [] 320 .pcm).2
      rfl rfl rfl rfl

/-! ### Helper lemmas: finalize state transitions -/

lemma finalize_closed (ctx : RecorderCtx) (env : Env) (st : RecState)
    (fs : Fs) (force : Bool) (h : st.wavFp = none ∨ st.wavPath = none) :
    finalize_segment ctx env st fs force = (st, fs, []) := by
  unfold finalize_segment
  rcases h with h | h
  · rw [h]
  · rw [h]
    rcases st.wavFp with _ | q <;> rfl

lemma finalize_open_state (ctx : RecorderCtx) (env : Env) (st : RecState)
    (fs : Fs) (force : Bool) (h q : Str) (hf : st.wavFp = some h)
    (hq : st.wavPath = some q) :
    (finalize_segment ctx env st fs force).1 = clearedSt st := by
  unfold finalize_segment
  rw [hf, hq]
  simp only [clearedSt]
  repeat' split
  all_goals rfl

lemma finalize_state (ctx : RecorderCtx) (env : Env) (st : RecState)
    (fs : Fs) (force : Bool) :
    (finalize_segment ctx env st fs force).1 = clearedSt st ∨
    (finalize_segment ctx env st fs force).1 = st := by
  rcases hf : st.wavFp with _ | h
  · right
    rw [finalize_closed ctx env st fs force (Or.inl hf)]
  · rcases hq : st.wavPath with _ | q
    · right
      rw [finalize_closed ctx env st fs force (Or.inr hq)]
    · left
      exact finalize_open_state ctx env st fs force h q hf hq

lemma finalize_segmentIndex (ctx : RecorderCtx) (env : Env) (st : RecState)
    (fs : Fs) (force : Bool) :
    (finalize_segment ctx env st fs force).1.segmentIndex = st.segmentIndex := by
  rcases finalize_state ctx env st fs force with h | h
  · rw [h]
    rfl
  · rw [h]

lemma finalize_decoder (ctx : RecorderCtx) (env : Env) (st : RecState)
    (fs : Fs) (force : Bool) :
    (finalize_segment ctx env st fs force).1.decoder = st.decoder ∧
    (finalize_segment ctx env st fs force).1.decoderCtorCount = st.decoderCtorCount := by
  rcases finalize_state ctx env st fs force with h | h
  · rw [h]
    exact ⟨rfl, rfl⟩
  · rw [h]
    exact ⟨rfl, rfl⟩

/-- C6: an odd-length PCM frame written while a segment is open appends
exactly `L - 1` bytes to the container and bumps the frame counter by
`(L - 1) / 2 / channels` (floor); a one-byte frame is discarded entirely:
no write, no state change, no event. -/
theorem c6_odd_frame_write (ctx : RecorderCtx) (env : Env) (st : RecState)
    (fs : Fs) (L : Nat) (hp : Str) (hopen : st.wavFp = some hp)
    (hch : 1 ≤ ctx.config.channels) (hw : env.writeOk = true)
    (hodd : L % 2 = 1) :
    (3 ≤ L →
      write_pcm ctx env st fs L =
        .ok ({ st with framesWritten :=
                 st.framesWritten + (L - 1) / 2 / ctx.config.channels.toNat },
             fsAppend fs hp (L - 1), [FsEv.write hp (L - 1)])) ∧
    (L = 1 → write_pcm ctx env st fs L = .ok (st, fs, [])) := by
  have hsub : L - L % 2 = L - 1 := by omega
  have hmax : max ctx.config.channels 1 = ctx.config.channels := max_eq_left hch
  constructor
  · intro h3
    have h0 : ¬(L - L % 2 = 0) := by omega
    unfold write_pcm
    rw [hopen]
    simp only [h0, if_false, hw, if_neg]
    simp [pcmFrameInc, hsub, hmax]
  · intro h1
    subst h1
    unfold write_pcm
    rw [hopen]
    simp

/-- C6 witness: a five-byte frame appends four bytes and adds two frames; a
one-byte frame is a complete no-op. -/
theorem c6_odd_frame_write_witness :
    (write_pcm sampleRec.1 sampleEnv (openSt 0) [] 5 =
      .ok ({ openSt 0 with framesWritten := 2 },
           fsAppend [] "/r/a.wav".toList 4, [FsEv.write "/r/a.wav".toList 4])) ∧
    (write_pcm sampleRec.1 sampleEnv (openSt 0) [] 1 = .ok (openSt 0, [], [])) := by
  constructor
  · exact (c6_odd_frame_write sampleRec.1 sampleEnv (openSt 0) [] 5
      "/r/a.wav".toList rfl (by decide) rfl (by decide)).1 (by decide)
  · exact (c6_odd_frame_write sampleRec.1 sampleEnv (openSt 0) [] 1
      "/r/a.wav".toList rfl (by decide) rfl (by decide)).2 rfl

/-- C9: `_finalize_segment` on a state with no open handle or no path is a
pure no-op (same state, same filesystem, no filesystem action); on an open
state it always transitions to the Closed state (handle, path, counter and
start epoch cleared) no matter which external operations fail; and a second
finalize or `close()` after any finalize is a pure no-op. -/
theorem c9_finalize_transitions_closed (ctx : RecorderCtx) (env env2 : Env)
    (st : RecState) (fs fs2 : Fs) (force force2 : Bool) :
    ((st.wavFp = none ∨ st.wavPath = none) →
      finalize_segment ctx env st fs force = (st, fs, [])) ∧
    (∀ h q, st.wavFp = some h → st.wavPath = some q →
      (finalize_segment ctx env st fs force).1 = clearedSt st) ∧
    (finalize_segment ctx env2 (finalize_segment ctx env st fs force).1 fs2 force2 =
      ((finalize_segment ctx env st fs force).1, fs2, [])) ∧
    (close ctx env2 (finalize_segment ctx env st fs force).1 fs2 =
      ((finalize_segment ctx env st fs force).1, fs2, [])) := by
  have hnoop : ∀ force2, finalize_segment ctx env2
      (finalize_segment ctx env st fs force).1 fs2 force2 =
      ((finalize_segment ctx env st fs force).1, fs2, []) := by
    intro force2
    rcases finalize_state ctx env st fs force with h | h
    · rw [h]
      exact finalize_closed ctx env2 (clearedSt st) fs2 force2 (Or.inl rfl)
    · rw [h]
      rcases hf : st.wavFp with _ | a
      · exact finalize_closed ctx env2 st fs2 force2 (Or.inl hf)
      · rcases hq : st.wavPath with _ | b
        · exact finalize_closed ctx env2 st fs2 force2 (Or.inr hq)
        · exfalso
          have := finalize_open_state ctx env st fs force a b hf hq
          rw [h] at this
          have hfp := congrArg RecState.wavFp this
          simp [clearedSt, hf] at hfp
  exact ⟨finalize_closed ctx env st fs force,
    fun h q hf hq => finalize_open_state ctx env st fs force h q hf hq,
    hnoop force2, hnoop true⟩

/-- C9 witness: finalizing an open segment with five frames clears the
state; finalizing the already-closed result again is an exact no-op, as is
`close()`. -/
theorem c9_finalize_transitions_closed_witness :
    ((finalize_segment sampleRec.1 sampleEnv (openSt 5) [] false).1 =
      clearedSt (openSt 5)) ∧
    (finalize_segment sampleRec.1 sampleEnv
        (finalize_segment sampleRec.1 sampleEnv (openSt 5) [] false).1 [] true =
      ((finalize_segment sampleRec.1 sampleEnv (openSt 5) [] false).1, [], [])) ∧
    (close sampleRec.1 sampleEnv
        (finalize_segment sampleRec.1 sampleEnv (openSt 5) [] false).1 [] =
      ((finalize_segment sampleRec.1 sampleEnv (openSt 5) [] false).1, [], [])) := by
  have h := c9_finalize_transitions_closed sampleRec.1 sampleEnv sampleEnv
    (openSt 5) [] [] false true
  exact ⟨h.2.1 "/r/a.wav".toList "/r/a.wav".toList rfl rfl, h.2.2.1, h.2.2.2⟩

/-! ### Helper lemmas: field preservation of the individual operations -/

lemma ensure_state (ctx : RecorderCtx) (env : Env) (st : RecState) (fs : Fs) :
    ∀ out, ensure_segment_open ctx env st fs = .ok out →
      out.1.segmentIndex = st.segmentIndex ∧ out.1.decoder = st.decoder ∧
      out.1.decoderCtorCount = st.decoderCtorCount := by
  intro out h
  unfold ensure_segment_open at h
  rcases hw : st.wavFp with _ | q
  · rw [hw] at h
    dsimp only [] at h
    split at h
    · exact absurd h (by simp)
    · split at h
      · exact absurd h (by simp)
      · split at h
        · exact absurd h (by simp)
        · injection h with h2
          subst h2
          exact ⟨rfl, rfl, rfl⟩
  · rw [hw] at h
    injection h with h2
    subst h2
    exact ⟨rfl, rfl, rfl⟩

lemma write_pcm_state (ctx : RecorderCtx) (env : Env) (st : RecState)
    (fs : Fs) (L : Nat) :
    ∀ out, write_pcm ctx env st fs L = .ok out →
      out.1.segmentIndex = st.segmentIndex ∧ out.1.decoder = st.decoder ∧
      out.1.decoderCtorCount = st.decoderCtorCount ∧
      out.1.wavFp = st.wavFp ∧ out.1.wavPath = st.wavPath := by
  intro out h
  unfold write_pcm at h
  rcases hw : st.wavFp with _ | hp
  · rw [hw] at h
    injection h with h2
    subst h2
    exact ⟨rfl, rfl, rfl, hw, rfl⟩
  · rw [hw] at h
    dsimp only [] at h
    split at h
    · injection h with h2
      subst h2
      exact ⟨rfl, rfl, rfl, hw, rfl⟩
    · split at h
      · exact absurd h (by simp)
      · injection h with h2
        subst h2
        exact ⟨rfl, rfl, rfl, rfl, rfl⟩

lemma decode_opus_state (env : Env) (st : RecState) :
    (decode_opus env st).1.segmentIndex = st.segmentIndex ∧
    (decode_opus env st).1.wavFp = st.wavFp ∧
    (decode_opus env st).1.wavPath = st.wavPath ∧
    (decode_opus env st).1.framesWritten = st.framesWritten ∧
    (decode_opus env st).1.segmentStartEpoch = st.segmentStartEpoch := by
  unfold decode_opus
  rcases hd : st.decoder with _ | d
  · refine ⟨?_, ?_, ?_, ?_, ?_⟩ <;> simp only [hd] <;> split <;> rfl
  · exact ⟨rfl, rfl, rfl, rfl, rfl⟩

lemma rotate_segmentIndex (ctx : RecorderCtx) (env : Env) (st : RecState)
    (fs : Fs) :
    (rotate_if_needed ctx env st fs).1.segmentIndex =
      if (st.framesWritten : Int) ≥ thresholdFrames ctx.config
      then st.segmentIndex + 1 else st.segmentIndex := by
  unfold rotate_if_needed
  split
  · simp [finalize_segmentIndex]
  · rfl

lemma rotate_decoder (ctx : RecorderCtx) (env : Env) (st : RecState) (fs : Fs) :
    (rotate_if_needed ctx env st fs).1.decoder = st.decoder ∧
    (rotate_if_needed ctx env st fs).1.decoderCtorCount = st.decoderCtorCount := by
  unfold rotate_if_needed
  split
  · exact ⟨by simp [(finalize_decoder ctx env st fs false).1],
      by simp [(finalize_decoder ctx env st fs false).2]⟩
  · exact ⟨rfl, rfl⟩

lemma append_segmentIndex (ctx : RecorderCtx) (env : Env) (st : RecState)
    (fs : Fs) (pkt : Nat) (fmt : AudioFormat) :
    ∀ out, append_audio_packet ctx env st fs pkt fmt = .ok out →
      st.segmentIndex ≤ out.1.segmentIndex ∧
      out.1.segmentIndex ≤ st.segmentIndex + 1 := by
  intro out h
  unfold append_audio_packet at h
  by_cases he : ctx.config.enabled = false
  · simp only [he, if_true] at h
    injection h with h2
    subst h2
    exact ⟨Nat.le_refl _, Nat.le_succ _⟩
  · by_cases hp : pkt = 0
    · simp only [he, hp, if_false, if_true] at h
      injection h with h2
      subst h2
      exact ⟨Nat.le_refl _, Nat.le_succ _⟩
    · simp only [he, hp, if_false] at h
      rcases hens : ensure_segment_open ctx env st fs with e | ⟨st1, fs1, t1⟩
      · rw [hens] at h
        exact absurd h (by simp)
      · rw [hens] at h
        dsimp only [] at h
        have hidx1 := (ensure_state ctx env st fs (st1, fs1, t1) hens).1
        dsimp only [] at hidx1
        rcases hfp : st1.wavFp with _ | q
        · rw [hfp] at h
          injection h with h2
          subst h2
          dsimp only []
          omega
        · rw [hfp] at h
          cases fmt with
          | pcm =>
            rcases hwr : write_pcm ctx env st1 fs1 pkt with e | ⟨st2, fs2, t2⟩
            · rw [hwr] at h
              exact absurd h (by simp)
            · rw [hwr] at h
              dsimp only [] at h
              have hidx2 := (write_pcm_state ctx env st1 fs1 pkt (st2, fs2, t2) hwr).1
              dsimp only [] at hidx2
              injection h with h2
              subst h2
              have hrot := rotate_segmentIndex ctx env st2 fs2
              dsimp only []
              rw [hrot]
              by_cases hc : (st2.framesWritten : Int) ≥ thresholdFrames ctx.config
              · rw [if_pos hc]
                omega
              · rw [if_neg hc]
                omega
          | opus =>
            have hidxd := (decode_opus_state env st1).1
            by_cases hl : (decode_opus env st1).2 = 0
            · simp only [hl, ne_eq, not_true_eq_false, if_false] at h
              injection h with h2
              subst h2
              have hrot := rotate_segmentIndex ctx env (decode_opus env st1).1 fs1
              dsimp only []
              rw [hrot]
              by_cases hc : ((decode_opus env st1).1.framesWritten : Int) ≥
                  thresholdFrames ctx.config
              · rw [if_pos hc]
                omega
              · rw [if_neg hc]
                omega
            · simp only [ne_eq, hl, not_false_eq_true, if_true] at h
              rcases hwr : write_pcm ctx env (decode_opus env st1).1 fs1
                  (decode_opus env st1).2 with e | ⟨st3, fs3, t3⟩
              · rw [hwr] at h
                exact absurd h (by simp)
              · rw [hwr] at h
                dsimp only [] at h
                have hidx3 := (write_pcm_state ctx env (decode_opus env st1).1 fs1
                  (decode_opus env st1).2 (st3, fs3, t3) hwr).1
                dsimp only [] at hidx3
                injection h with h2
                subst h2
                have hrot := rotate_segmentIndex ctx env st3 fs3
                dsimp only []
                rw [hrot]
                by_cases hc : (st3.framesWritten : Int) ≥ thresholdFrames ctx.config
                · rw [if_pos hc]
                  omega
                · rw [if_neg hc]
                  omega

/-- C10: the segment sequence index starts at 0, is bumped by exactly one by
`_rotate_if_needed` precisely when the accumulated frame count has reached
the threshold, is left unchanged by `_finalize_segment`, `close` and
`_ensure_segment_open` (so a segment opened after `close()` reuses the index
of the segment just closed), and never decreases across a full
`append_audio_packet` call, which raises it by at most one. -/
theorem c10_segment_index (cfg : RecordingConfig) (did sid : Str)
    (ctx : RecorderCtx) (env : Env) (st : RecState) (fs : Fs)
    (pkt : Nat) (fmt : AudioFormat) (force : Bool) :
    (mkRecorder cfg did sid).2.segmentIndex = 0 ∧
    ((rotate_if_needed ctx env st fs).1.segmentIndex =
      if (st.framesWritten : Int) ≥ thresholdFrames ctx.config
      then st.segmentIndex + 1 else st.segmentIndex) ∧
    (finalize_segment ctx env st fs force).1.segmentIndex = st.segmentIndex ∧
    (close ctx env st fs).1.segmentIndex = st.segmentIndex ∧
    (∀ out, ensure_segment_open ctx env st fs = .ok out →
      out.1.segmentIndex = st.segmentIndex) ∧
    (∀ out, append_audio_packet ctx env st fs pkt fmt = .ok out →
      st.segmentIndex ≤ out.1.segmentIndex ∧
      out.1.segmentIndex ≤ st.segmentIndex + 1) := by
  exact ⟨rfl, rotate_segmentIndex ctx env st fs,
    finalize_segmentIndex ctx env st fs force,
    finalize_segmentIndex ctx env st fs true,
    fun out h => (ensure_state ctx env st fs out h).1,
    append_segmentIndex ctx env st fs pkt fmt⟩

/-- C10 witness: the theorem instantiated at a fresh recorder, an open
segment below the threshold, a closing call and a concrete append. -/
theorem c10_segment_index_witness :
    (mkRecorder sampleConfig "d".toList "s".toList).2.segmentIndex = 0 ∧
    (openSt 0).segmentIndex = 0 ∧
    ((openSt 0).segmentIndex ≤
        ({ openSt 0 with framesWritten := 160 } : RecState).segmentIndex ∧
      ({ openSt 0 with framesWritten := 160 } : RecState).segmentIndex ≤
        (openSt 0).segmentIndex + 1) ∧
    (close sampleRec.1 sampleEnv (openSt 5) []).1.segmentIndex =
      (openSt 5).segmentIndex := by
  have h := c10_segment_index sampleConfig "d".toList "s".toList sampleRec.1
    sampleEnv (openSt 0) [] 320 .pcm false
  have h5 := c10_segment_index sampleConfig "d".toList "s".toList sampleRec.1
    sampleEnv (openSt 5) [] 320 .pcm false
  exact ⟨h.1, h.2.2.2.2.1 (openSt 0, [], []) rfl,
    h.2.2.2.2.2 ({ openSt 0 with framesWritten := 160 },
      fsAppend [] "/r/a.wav".toList 320, [FsEv.write "/r/a.wav".toList 320]) rfl,
    h5.2.2.2.1⟩

lemma ensure_noop_of_open (ctx : RecorderCtx) (env : Env) (st : RecState)
    (fs : Fs) (hp : Str) (hopen : st.wavFp = some hp) :
    ensure_segment_open ctx env st fs = .ok (st, fs, []) := by
  unfold ensure_segment_open
  rw [hopen]

lemma rotate_state_open (ctx : RecorderCtx) (env : Env) (st : RecState)
    (fs : Fs) (hp p : Str) (hf : st.wavFp = some hp)
    (hq : st.wavPath = some p) :
    (rotate_if_needed ctx env st fs).1 =
      if (st.framesWritten : Int) ≥ thresholdFrames ctx.config
      then { clearedSt st with segmentIndex := st.segmentIndex + 1 }
      else st := by
  unfold rotate_if_needed
  split
  · dsimp only []
    rw [finalize_open_state ctx env st fs false hp p hf hq]
    rfl
  · rfl

/-- C3: an accepted PCM packet appended to an open segment rotates the
segment (finalizes it and advances the sequence index) exactly when the
accumulated frame count reaches `segment_seconds * sample_rate`, and
otherwise only advances the frame counter; the decision depends only on the
accumulated count and the configuration (the expected state `c3Expected` does
not mention the oracle, so no wall-clock input can influence it), and a count
strictly below the threshold stays strictly below it when no rotation
fires. -/
theorem c3_rotation_threshold (ctx : RecorderCtx) (env : Env) (st : RecState)
    (fs : Fs) (L : Nat) (hp p : Str) (he : ctx.config.enabled = true)
    (hopen : st.wavFp = some hp) (hpath : st.wavPath = some p)
    (hw : env.writeOk = true) (hL : 0 < L) :
    ((append_audio_packet ctx env st fs L .pcm).map (fun out => out.1) =
      .ok (c3Expected ctx st L)) ∧
    (0 < thresholdFrames ctx.config →
      (st.framesWritten : Int) < thresholdFrames ctx.config →
      ((c3Expected ctx st L).framesWritten : Int) < thresholdFrames ctx.config) := by
  constructor
  · have he' : ¬(ctx.config.enabled = false) := by simp [he]
    have hL' : ¬(L = 0) := by omega
    unfold append_audio_packet
    simp only [he', hL', if_false]
    rw [ensure_noop_of_open ctx env st fs hp hopen]
    dsimp only []
    rw [hopen]
    dsimp only []
    by_cases h0 : L - L % 2 = 0
    · have hwr : write_pcm ctx env st fs L = .ok (st, fs, []) := by
        unfold write_pcm
        rw [hopen]
        dsimp only []
        rw [if_pos h0]
      rw [hwr]
      dsimp only [Except.map]
      rw [rotate_state_open ctx env st fs hp p hopen hpath]
      have hinc : pcmFrameInc ctx.config L = 0 := by
        unfold pcmFrameInc
        rw [h0]
        simp
      unfold c3Expected
      rw [hinc]
      simp
    · have hwr : write_pcm ctx env st fs L =
          .ok ({ st with framesWritten := st.framesWritten + pcmFrameInc ctx.config L },
               fsAppend fs hp (L - L % 2), [FsEv.write hp (L - L % 2)]) := by
        unfold write_pcm
        rw [hopen]
        dsimp only []
        rw [if_neg h0, if_neg (by simp [hw])]
      rw [hwr]
      dsimp only [Except.map]
      rw [rotate_state_open ctx env
        { st with framesWritten := st.framesWritten + pcmFrameInc ctx.config L }
        (fsAppend fs hp (L - L % 2)) hp p hopen hpath]
      rfl
  · intro hT hlt
    unfold c3Expected
    split
    · dsimp only [clearedSt]
      simpa using hT
    · rename_i hcond
      dsimp only []
      omega

/-- C3 witness: over a threshold of 2 frames, a 4-byte PCM packet appended
to an open segment holding 1 frame crosses the threshold and rotates. -/
theorem c3_rotation_threshold_witness :
    ((append_audio_packet c3Ctx sampleEnv (openSt 1) [] 4 .pcm).map
      (fun out => out.1) = .ok (c3Expected c3Ctx (openSt 1) 4)) ∧
    ((c3Expected c3Ctx (openSt 1) 4).framesWritten : Int) <
      thresholdFrames c3Ctx.config := by
  have h := c3_rotation_threshold c3Ctx sampleEnv (openSt 1) [] 4
    "/r/a.wav".toList "/r/a.wav".toList rfl rfl rfl rfl (by decide)
  exact ⟨h.1, h.2 (by decide) (by decide)⟩

/-! ### Helper lemmas: paths, the filesystem and the finalize branches -/

lemma splitext_append (p : Str) : (splitext p).1 ++ (splitext p).2 = p := by
  unfold splitext
  rcases h : lastIdxOf '.' p with _ | di
  · simp
  · dsimp only []
    split
    · exact List.take_append_drop di p
    · simp

lemma segSuffix_length_pos (cfg : RecordingConfig) (durMs : Nat) :
    0 < (segSuffix cfg durMs).length := by
  unfold segSuffix
  rw [List.length_append, List.length_append, List.length_append,
    List.length_append]
  have h4 : ("_seg".toList).length = 4 := rfl
  omega

lemma renamed_ne (cfg : RecordingConfig) (p : Str) (durMs : Nat) :
    renamedWavPath cfg p durMs ≠ p := by
  intro h
  have hlen := congrArg List.length h
  unfold renamedWavPath at hlen
  rw [List.length_append, List.length_append] at hlen
  have hlen2 := congrArg List.length (splitext_append p)
  rw [List.length_append] at hlen2
  have hpos := segSuffix_length_pos cfg durMs
  omega

lemma fsLookup_fsErase (fs : Fs) (p q : Str) :
    fsLookup (fsErase fs p) q = if p = q then none else fsLookup fs q := by
  induction fs with
  | nil =>
    simp only [fsErase, fsLookup]
    split <;> rfl
  | cons e t ih =>
    by_cases he : e.1 = p
    · simp only [fsErase, he, if_true, ih, fsLookup]
      by_cases hq : p = q
      · simp [hq]
      · simp [hq]
    · simp only [fsErase, he, if_false, fsLookup]
      by_cases heq : e.1 = q
      · have hq : ¬(p = q) := fun hc => he (hc ▸ heq)
        simp [heq, hq]
      · simp [heq, ih]

lemma fsLookup_fsInsert (fs : Fs) (p : Str) (c : Nat) (q : Str) :
    fsLookup (fsInsert fs p c) q = if p = q then some c else fsLookup fs q := by
  unfold fsInsert
  simp only [fsLookup]
  by_cases hq : p = q
  · simp [hq]
  · simp [hq, fsLookup_fsErase]

lemma finalize_empty_noforce (ctx : RecorderCtx) (env : Env) (st : RecState)
    (fs : Fs) (hp p : Str) (hf : st.wavFp = some hp) (hq : st.wavPath = some p)
    (hfr : st.framesWritten = 0) :
    finalize_segment ctx env st fs false =
      (clearedSt st, if env.removeOk then fsErase fs p else fs,
       [FsEv.closeW, FsEv.remove p]) := by
  unfold finalize_segment
  rw [hf, hq]
  dsimp only []
  rw [if_pos ⟨hfr, rfl⟩]
  rfl

lemma finalize_nonempty (ctx : RecorderCtx) (env : Env) (st : RecState)
    (fs : Fs) (force : Bool) (hp p : Str) (hf : st.wavFp = some hp)
    (hq : st.wavPath = some p)
    (hcond : ¬(st.framesWritten = 0 ∧ force = false)) :
    finalize_segment ctx env st fs force =
      (let rp := renamedWavPath ctx.config p
        (actualDurationMs ctx.config st.framesWritten)
       let fs1 := if env.renameOk then fsMove fs p rp else fs
       let w1 := if env.renameOk then rp else p
       let mp3 := (splitext w1).1 ++ ".mp3".toList
       if env.whichOk = false then
         (clearedSt st, fs1, [FsEv.closeW, FsEv.rename p rp])
       else if env.ffmpegOk then
         if ctx.config.keep_wav = false then
           (clearedSt st,
            if env.removeOk then fsErase (fsInsert fs1 mp3 0) w1
            else fsInsert fs1 mp3 0,
            [FsEv.closeW, FsEv.rename p rp, FsEv.ffmpegRun w1 mp3,
             FsEv.remove w1])
         else
           (clearedSt st, fsInsert fs1 mp3 0,
            [FsEv.closeW, FsEv.rename p rp, FsEv.ffmpegRun w1 mp3])
       else
         (clearedSt st, fs1,
          [FsEv.closeW, FsEv.rename p rp, FsEv.ffmpegRun w1 mp3])) := by
  unfold finalize_segment
  rw [hf, hq]
  dsimp only []
  rw [if_neg hcond]
  rw [if_pos (renamed_ne ctx.config p (actualDurationMs ctx.config st.framesWritten))]
  rfl

/-- C4: finalizing an open segment with zero frames under natural rotation
(force=false) deletes the raw file and nothing else — the action trace is
exactly close-then-remove, with no rename and no transcode — whereas the
forced finalize performed by `close()` (force=true) never removes the raw
pre-rename path: the file is renamed, and when the transcoder resolves on the
path a transcode is attempted. -/
theorem c4_empty_segment_finalize (ctx : RecorderCtx) (env : Env)
    (st : RecState) (fs : Fs) (hp p : Str) (hf : st.wavFp = some hp)
    (hq : st.wavPath = some p) (hfr : st.framesWritten = 0)
    (hren : env.renameOk = true) :
    (finalize_segment ctx env st fs false =
      (clearedSt st, if env.removeOk then fsErase fs p else fs,
       [FsEv.closeW, FsEv.remove p])) ∧
    (∀ a b, FsEv.rename a b ∉ (finalize_segment ctx env st fs false).2.2) ∧
    (∀ a b, FsEv.ffmpegRun a b ∉ (finalize_segment ctx env st fs false).2.2) ∧
    (FsEv.remove p ∉ (close ctx env st fs).2.2) ∧
    (FsEv.rename p (renamedWavPath ctx.config p
      (actualDurationMs ctx.config st.framesWritten)) ∈ (close ctx env st fs).2.2) ∧
    (env.whichOk = true → ∃ m, FsEv.ffmpegRun (renamedWavPath ctx.config p
      (actualDurationMs ctx.config st.framesWritten)) m ∈ (close ctx env st fs).2.2) := by
  have hempty := finalize_empty_noforce ctx env st fs hp p hf hq hfr
  have hforce := finalize_nonempty ctx env st fs true hp p hf hq (by simp)
  have hne : p ≠ renamedWavPath ctx.config p (actualDurationMs ctx.config st.framesWritten) :=
    Ne.symm (renamed_ne ctx.config p (actualDurationMs ctx.config st.framesWritten))
  refine ⟨hempty, ?_, ?_, ?_, ?_, ?_⟩
  · rw [hempty]
    intro a b
    simp
  · rw [hempty]
    intro a b
    simp
  · show FsEv.remove p ∉ (finalize_segment ctx env st fs true).2.2
    rw [hforce]
    cases hwh : env.whichOk <;> cases hff : env.ffmpegOk <;>
      cases hkw : ctx.config.keep_wav <;> simp [hwh, hff, hkw, hren, hne]
  · show FsEv.rename p (renamedWavPath ctx.config p
      (actualDurationMs ctx.config st.framesWritten)) ∈
        (finalize_segment ctx env st fs true).2.2
    rw [hforce]
    cases hwh : env.whichOk <;> cases hff : env.ffmpegOk <;>
      cases hkw : ctx.config.keep_wav <;> simp [hwh, hff, hkw, hren]
  · intro hw
    show ∃ m, FsEv.ffmpegRun (renamedWavPath ctx.config p
      (actualDurationMs ctx.config st.framesWritten)) m ∈
        (finalize_segment ctx env st fs true).2.2
    rw [hforce]
    refine ⟨(splitext (renamedWavPath ctx.config p
      (actualDurationMs ctx.config st.framesWritten))).1 ++ ".mp3".toList, ?_⟩
    cases hff : env.ffmpegOk <;> cases hkw : ctx.config.keep_wav <;>
      simp [hw, hff, hkw, hren]

/-- C4 witness: the theorem at a concrete empty open segment, with both the
natural rotation and the forced close. -/
theorem c4_empty_segment_finalize_witness :
    (finalize_segment sampleRec.1 sampleEnv (openSt 0) [] false =
      (clearedSt (openSt 0), fsErase [] "/r/a.wav".toList,
       [FsEv.closeW, FsEv.remove "/r/a.wav".toList])) ∧
    (FsEv.remove "/r/a.wav".toList ∉
      (close sampleRec.1 sampleEnv (openSt 0) []).2.2) ∧
    (∃ m, FsEv.ffmpegRun (renamedWavPath sampleConfig "/r/a.wav".toList
      (actualDurationMs sampleConfig 0)) m ∈
        (close sampleRec.1 sampleEnv (openSt 0) []).2.2) := by
  have h := c4_empty_segment_finalize sampleRec.1 sampleEnv (openSt 0) []
    "/r/a.wav".toList "/r/a.wav".toList rfl rfl rfl rfl
  exact ⟨h.1, h.2.2.2.1, h.2.2.2.2.2 rfl⟩

/-- C5: when the transcoding executable does not resolve, finalize performs
only the close and the metadata rename: the trace has no remove and no
transcoder invocation, the (renamed) raw wav keeps its exact content, a
failed rename leaves the filesystem untouched, and no path other than the raw
file and its renamed version is created or modified — in particular no
sibling compressed artifact appears. -/
theorem c5_transcoder_missing (ctx : RecorderCtx) (env : Env) (st : RecState)
    (fs : Fs) (force : Bool) (hp p : Str) (n : Nat)
    (hf : st.wavFp = some hp) (hq : st.wavPath = some p)
    (hwhich : env.whichOk = false)
    (hcond : ¬(st.framesWritten = 0 ∧ force = false))
    (hn : fsLookup fs p = some n) :
    ((finalize_segment ctx env st fs force).2.2 =
      [FsEv.closeW, FsEv.rename p (renamedWavPath ctx.config p
        (actualDurationMs ctx.config st.framesWritten))]) ∧
    ((finalize_segment ctx env st fs force).2.1 =
      if env.renameOk then fsMove fs p (renamedWavPath ctx.config p
        (actualDurationMs ctx.config st.framesWritten)) else fs) ∧
    (env.renameOk = true →
      fsLookup (finalize_segment ctx env st fs force).2.1
        (renamedWavPath ctx.config p
          (actualDurationMs ctx.config st.framesWritten)) = some n) ∧
    (env.renameOk = false → (finalize_segment ctx env st fs force).2.1 = fs) ∧
    (∀ q, q ≠ p →
      q ≠ renamedWavPath ctx.config p (actualDurationMs ctx.config st.framesWritten) →
      fsLookup (finalize_segment ctx env st fs force).2.1 q = fsLookup fs q) := by
  have hchar := finalize_nonempty ctx env st fs force hp p hf hq hcond
  rw [hchar]
  dsimp only []
  rw [if_pos hwhich]
  refine ⟨rfl, rfl, ?_, ?_, ?_⟩
  · intro hr
    simp only [hr, if_true]
    unfold fsMove
    rw [hn]
    rw [fsLookup_fsInsert]
    simp
  · intro hr
    simp [hr]
  · intro q hqp hqrp
    cases hr : env.renameOk
    · simp [hr]
    · simp only [hr, if_true]
      unfold fsMove
      rw [hn]
      rw [fsLookup_fsInsert, if_neg (Ne.symm hqrp), fsLookup_fsErase,
        if_neg (Ne.symm hqp)]

/-- C5 witness: the theorem at a concrete open segment of five frames, a
filesystem holding the raw file with 160 bytes, and an oracle on which the
transcoder does not resolve. -/
theorem c5_transcoder_missing_witness :
    (((finalize_segment sampleRec.1 { sampleEnv with whichOk := false }
        (openSt 5) [("/r/a.wav".toList, 160)] true).2.2 =
      [FsEv.closeW, FsEv.rename "/r/a.wav".toList
        (renamedWavPath sampleConfig "/r/a.wav".toList
          (actualDurationMs sampleConfig 5))]) ∧
    (fsLookup (finalize_segment sampleRec.1 { sampleEnv with whichOk := false }
        (openSt 5) [("/r/a.wav".toList, 160)] true).2.1
      (renamedWavPath sampleConfig "/r/a.wav".toList
        (actualDurationMs sampleConfig 5)) = some 160)) := by
  have h := c5_transcoder_missing sampleRec.1 { sampleEnv with whichOk := false }
    (openSt 5) [("/r/a.wav".toList, 160)] true "/r/a.wav".toList
    "/r/a.wav".toList 160 rfl rfl rfl (by simp) rfl
  exact ⟨h.1, h.2.2.1 rfl⟩

/-! ### Helper lemmas: decoder tracking -/

lemma decode_opus_some (env : Env) (st : RecState) (d : Nat)
    (hd : st.decoder = some d) : (decode_opus env st).1 = st := by
  unfold decode_opus
  rw [hd]

lemma decode_opus_none (env : Env) (st : RecState) (hd : st.decoder = none) :
    (decode_opus env st).1 =
      if env.decoderCtorOk then
        { st with decoder := some st.decoderCtorCount
                  decoderCtorCount := st.decoderCtorCount + 1 }
      else st := by
  unfold decode_opus
  rw [hd]
  dsimp only []
  split <;> rfl

lemma append_decoder_cases (ctx : RecorderCtx) (env : Env) (st : RecState)
    (fs : Fs) (pkt : Nat) (fmt : AudioFormat) :
    ∀ out, append_audio_packet ctx env st fs pkt fmt = .ok out →
      (out.1.decoder = st.decoder ∧
        out.1.decoderCtorCount = st.decoderCtorCount) ∨
      (st.decoder = none ∧ out.1.decoder = some st.decoderCtorCount ∧
        out.1.decoderCtorCount = st.decoderCtorCount + 1 ∧
        fmt = .opus ∧ env.decoderCtorOk = true) := by
  intro out h
  unfold append_audio_packet at h
  by_cases he : ctx.config.enabled = false
  · simp only [he, if_true] at h
    injection h with h2
    subst h2
    exact Or.inl ⟨rfl, rfl⟩
  · by_cases hpk : pkt = 0
    · simp only [he, hpk, if_false, if_true] at h
      injection h with h2
      subst h2
      exact Or.inl ⟨rfl, rfl⟩
    · simp only [he, hpk, if_false] at h
      rcases hens : ensure_segment_open ctx env st fs with e | ⟨st1, fs1, t1⟩
      · rw [hens] at h
        exact absurd h (by simp)
      · rw [hens] at h
        dsimp only [] at h
        obtain ⟨-, hdec1, hcnt1⟩ := ensure_state ctx env st fs (st1, fs1, t1) hens
        dsimp only [] at hdec1 hcnt1
        rcases hfp : st1.wavFp with _ | q
        · rw [hfp] at h
          injection h with h2
          subst h2
          exact Or.inl ⟨hdec1, hcnt1⟩
        · rw [hfp] at h
          cases fmt with
          | pcm =>
            rcases hwr : write_pcm ctx env st1 fs1 pkt with e | ⟨st2, fs2, t2⟩
            · rw [hwr] at h
              exact absurd h (by simp)
            · rw [hwr] at h
              dsimp only [] at h
              obtain ⟨-, hdec2, hcnt2, -, -⟩ :=
                write_pcm_state ctx env st1 fs1 pkt (st2, fs2, t2) hwr
              dsimp only [] at hdec2 hcnt2
              injection h with h2
              subst h2
              have hrot := rotate_decoder ctx env st2 fs2
              dsimp only []
              exact Or.inl ⟨hrot.1.trans (hdec2.trans hdec1),
                hrot.2.trans (hcnt2.trans hcnt1)⟩
          | opus =>
            rcases hd1 : st1.decoder with _ | d
            · -- no decoder yet: the call may construct one
              have hdnone : st.decoder = none := hdec1 ▸ hd1
              have hdec := decode_opus_none env st1 hd1
              by_cases hctor : env.decoderCtorOk = true
              · rw [if_pos hctor] at hdec
                by_cases hl : (decode_opus env st1).2 = 0
                · simp only [hl, ne_eq, not_true_eq_false, if_false] at h
                  injection h with h2
                  subst h2
                  have hrot := rotate_decoder ctx env (decode_opus env st1).1 fs1
                  dsimp only []
                  refine Or.inr ⟨hdnone, ?_, ?_, rfl, hctor⟩
                  · rw [hrot.1, hdec]
                    dsimp only []
                    rw [hcnt1]
                  · rw [hrot.2, hdec]
                    dsimp only []
                    rw [hcnt1]
                · simp only [ne_eq, hl, not_false_eq_true, if_true] at h
                  rcases hwr : write_pcm ctx env (decode_opus env st1).1 fs1
                      (decode_opus env st1).2 with e | ⟨st3, fs3, t3⟩
                  · rw [hwr] at h
                    exact absurd h (by simp)
                  · rw [hwr] at h
                    dsimp only [] at h
                    obtain ⟨-, hdec3, hcnt3, -, -⟩ :=
                      write_pcm_state ctx env (decode_opus env st1).1 fs1
                        (decode_opus env st1).2 (st3, fs3, t3) hwr
                    dsimp only [] at hdec3 hcnt3
                    injection h with h2
                    subst h2
                    have hrot := rotate_decoder ctx env st3 fs3
                    dsimp only []
                    refine Or.inr ⟨hdnone, ?_, ?_, rfl, hctor⟩
                    · rw [hrot.1, hdec3, hdec]
                      dsimp only []
                      rw [hcnt1]
                    · rw [hrot.2, hcnt3, hdec]
                      dsimp only []
                      rw [hcnt1]
              · have hctor' : env.decoderCtorOk = false := by
                  cases hc : env.decoderCtorOk
                  · rfl
                  · exact absurd hc hctor
                rw [if_neg (by simp [hctor'])] at hdec
                by_cases hl : (decode_opus env st1).2 = 0
                · simp only [hl, ne_eq, not_true_eq_false, if_false] at h
                  injection h with h2
                  subst h2
                  have hrot := rotate_decoder ctx env (decode_opus env st1).1 fs1
                  dsimp only []
                  refine Or.inl ⟨?_, ?_⟩
                  · rw [hrot.1, hdec, hdec1]
                  · rw [hrot.2, hdec, hcnt1]
                · simp only [ne_eq, hl, not_false_eq_true, if_true] at h
                  rcases hwr : write_pcm ctx env (decode_opus env st1).1 fs1
                      (decode_opus env st1).2 with e | ⟨st3, fs3, t3⟩
                  · rw [hwr] at h
                    exact absurd h (by simp)
                  · rw [hwr] at h
                    dsimp only [] at h
                    obtain ⟨-, hdec3, hcnt3, -, -⟩ :=
                      write_pcm_state ctx env (decode_opus env st1).1 fs1
                        (decode_opus env st1).2 (st3, fs3, t3) hwr
                    dsimp only [] at hdec3 hcnt3
                    injection h with h2
                    subst h2
                    have hrot := rotate_decoder ctx env st3 fs3
                    dsimp only []
                    refine Or.inl ⟨?_, ?_⟩
                    · rw [hrot.1, hdec3, hdec, hdec1]
                    · rw [hrot.2, hcnt3, hdec, hcnt1]
            · -- decoder already present: it is reused unchanged
              have hdec := decode_opus_some env st1 d hd1
              by_cases hl : (decode_opus env st1).2 = 0
              · simp only [hl, ne_eq, not_true_eq_false, if_false] at h
                injection h with h2
                subst h2
                have hrot := rotate_decoder ctx env (decode_opus env st1).1 fs1
                dsimp only []
                refine Or.inl ⟨?_, ?_⟩
                · rw [hrot.1, hdec, hdec1]
                · rw [hrot.2, hdec, hcnt1]
              · simp only [ne_eq, hl, not_false_eq_true, if_true] at h
                rcases hwr : write_pcm ctx env (decode_opus env st1).1 fs1
                    (decode_opus env st1).2 with e | ⟨st3, fs3, t3⟩
                · rw [hwr] at h
                  exact absurd h (by simp)
                · rw [hwr] at h
                  dsimp only [] at h
                  obtain ⟨-, hdec3, hcnt3, -, -⟩ :=
                    write_pcm_state ctx env (decode_opus env st1).1 fs1
                      (decode_opus env st1).2 (st3, fs3, t3) hwr
                  dsimp only [] at hdec3 hcnt3
                  injection h with h2
                  subst h2
                  have hrot := rotate_decoder ctx env st3 fs3
                  dsimp only []
                  refine Or.inl ⟨?_, ?_⟩
                  · rw [hrot.1, hdec3, hdec, hdec1]
                  · rw [hrot.2, hcnt3, hdec, hcnt1]

/-- C7: a fresh recorder starts with no decoder and zero constructions; the
compressed-audio decoder is constructed at most once, lazily on the first
compressed packet — `DecoderInv` is preserved by every append, an existing
decoder object is reused unchanged by every later packet, PCM packets never
construct one — and a decode failure drops the packet: the call returns
normally, writes no frame and performs no filesystem action. -/
theorem c7_decoder_identity (cfg : RecordingConfig) (did sid : Str)
    (ctx : RecorderCtx) (env : Env) (st : RecState) (fs : Fs) (pkt : Nat)
    (fmt : AudioFormat) (hp : Str) :
    ((mkRecorder cfg did sid).2.decoder = none ∧
      (mkRecorder cfg did sid).2.decoderCtorCount = 0) ∧
    (∀ out d, append_audio_packet ctx env st fs pkt fmt = .ok out →
      st.decoder = some d →
      out.1.decoder = some d ∧
      out.1.decoderCtorCount = st.decoderCtorCount) ∧
    (∀ out, append_audio_packet ctx env st fs pkt fmt = .ok out →
      DecoderInv st → DecoderInv out.1) ∧
    (∀ out, append_audio_packet ctx env st fs pkt .pcm = .ok out →
      out.1.decoder = st.decoder) ∧
    (ctx.config.enabled = true → pkt ≠ 0 → st.wavFp = some hp →
      st.decoder = none → env.decoderCtorOk = true →
      ∀ out, append_audio_packet ctx env st fs pkt .opus = .ok out →
        out.1.decoder = some st.decoderCtorCount) ∧
    (ctx.config.enabled = true → pkt ≠ 0 → st.wavFp = some hp →
      env.decodeOk = false →
      (st.framesWritten : Int) < thresholdFrames ctx.config →
      append_audio_packet ctx env st fs pkt .opus =
        .ok ((decode_opus env st).1, fs, []) ∧
      (decode_opus env st).1.framesWritten = st.framesWritten) := by
  refine ⟨⟨rfl, rfl⟩, ?_, ?_, ?_, ?_, ?_⟩
  · intro out d h hd
    rcases append_decoder_cases ctx env st fs pkt fmt out h with
      ⟨h1, h2⟩ | ⟨h1, -, -, -, -⟩
    · exact ⟨h1.trans hd, h2⟩
    · rw [h1] at hd
      exact absurd hd (by simp)
  · intro out h hinv
    rcases append_decoder_cases ctx env st fs pkt fmt out h with
      ⟨h1, h2⟩ | ⟨h1, h2, h3, -, -⟩
    · constructor
      · intro hn
        rw [h1] at hn
        rw [h2]
        exact hinv.1 hn
      · intro d hd
        rw [h1] at hd
        obtain ⟨hc, hd0⟩ := hinv.2 d hd
        exact ⟨h2.trans hc, hd0⟩
    · have hc0 := hinv.1 h1
      constructor
      · intro hn
        rw [h2] at hn
        exact absurd hn (by simp)
      · intro d hd
        rw [h2] at hd
        injection hd with hd0
        refine ⟨by omega, by omega⟩
  · intro out h
    rcases append_decoder_cases ctx env st fs pkt .pcm out h with
      ⟨h1, -⟩ | ⟨-, -, -, hfmt, -⟩
    · exact h1
    · exact absurd hfmt (by simp)
  · intro he hpk hopen hdn hctor out h
    unfold append_audio_packet at h
    simp only [show ¬(ctx.config.enabled = false) by simp [he], hpk,
      if_false] at h
    rw [ensure_noop_of_open ctx env st fs hp hopen] at h
    dsimp only [] at h
    rw [hopen] at h
    dsimp only [] at h
    have hdec := decode_opus_none env st hdn
    rw [if_pos hctor] at hdec
    by_cases hl : (decode_opus env st).2 = 0
    · simp only [hl, ne_eq, not_true_eq_false, if_false] at h
      injection h with h2
      subst h2
      have hrot := rotate_decoder ctx env (decode_opus env st).1 fs
      dsimp only []
      rw [hrot.1, hdec]
    · simp only [ne_eq, hl, not_false_eq_true, if_true] at h
      rcases hwr : write_pcm ctx env (decode_opus env st).1 fs
          (decode_opus env st).2 with e | ⟨st3, fs3, t3⟩
      · rw [hwr] at h
        exact absurd h (by simp)
      · rw [hwr] at h
        dsimp only [] at h
        obtain ⟨-, hdec3, -, -, -⟩ := write_pcm_state ctx env
          (decode_opus env st).1 fs (decode_opus env st).2 (st3, fs3, t3) hwr
        dsimp only [] at hdec3
        injection h with h2
        subst h2
        have hrot := rotate_decoder ctx env st3 fs3
        dsimp only []
        rw [hrot.1, hdec3, hdec]
  · intro he hpk hopen hdfail hlt
    have hfr := (decode_opus_state env st).2.2.2.1
    constructor
    · have hlen : (decode_opus env st).2 = 0 := by
        unfold decode_opus
        rcases hd : st.decoder with _ | d
        · dsimp only []
          split
          · simp [hdfail]
          · rfl
        · simp [hdfail]
      unfold append_audio_packet
      simp only [show ¬(ctx.config.enabled = false) by simp [he], hpk, if_false]
      rw [ensure_noop_of_open ctx env st fs hp hopen]
      dsimp only []
      rw [hopen]
      dsimp only []
      simp only [hlen, ne_eq, not_true_eq_false, if_false]
      have hrotnone : rotate_if_needed ctx env (decode_opus env st).1 fs =
          ((decode_opus env st).1, fs, []) := by
        unfold rotate_if_needed
        rw [if_neg (by rw [hfr]; omega)]
      rw [hrotnone]
      rfl
    · exact hfr

/-- C7 witness: a fresh recorder has no decoder; on a recorder whose decoder
already exists a compressed packet leaves the same decoder object and
construction count; the invariant holds after the call; and a decode failure
returns normally having written nothing. -/
theorem c7_decoder_identity_witness :
    ((mkRecorder sampleConfig "d".toList "s".toList).2.decoder = none ∧
      (mkRecorder sampleConfig "d".toList "s".toList).2.decoderCtorCount = 0) ∧
    (({ c7StD with framesWritten := 960 } : RecState).decoder = some 0 ∧
      ({ c7StD with framesWritten := 960 } : RecState).decoderCtorCount = 1) ∧
    DecoderInv ({ c7StD with framesWritten := 960 } : RecState) ∧
    (append_audio_packet sampleRec.1 { sampleEnv with decodeOk := false }
        (openSt 0) [] 100 .opus =
      .ok ((decode_opus { sampleEnv with decodeOk := false } (openSt 0)).1,
        [], [])) := by
  have h := c7_decoder_identity sampleConfig "d".toList "s".toList sampleRec.1
    sampleEnv c7StD [] 100 .opus "/r/a.wav".toList
  have h5 := c7_decoder_identity sampleConfig "d".toList "s".toList sampleRec.1
    { sampleEnv with decodeOk := false } (openSt 0) [] 100 .opus
    "/r/a.wav".toList
  have hinv : DecoderInv c7StD := by
    unfold DecoderInv
    constructor
    · intro hn
      exact absurd hn (by decide)
    · intro d hd
      have h00 : c7StD.decoder = some 0 := rfl
      rw [h00] at hd
      injection hd with h0
      exact ⟨rfl, h0.symm⟩
  refine ⟨h.1, ?_, ?_, ?_⟩
  · exact h.2.1 ({ c7StD with framesWritten := 960 },
      fsAppend [] "/r/a.wav".toList 1920,
      [FsEv.write "/r/a.wav".toList 1920]) 0 rfl rfl
  · exact h.2.2.1 ({ c7StD with framesWritten := 960 },
      fsAppend [] "/r/a.wav".toList 1920,
      [FsEv.write "/r/a.wav".toList 1920]) rfl hinv
  · exact (h5.2.2.2.2.2 rfl (by decide) rfl rfl (by decide)).1

/-! ### Helper lemmas: decimal digit strings and the calendar -/

lemma digitChar_isDigit (n : Nat) : (digitChar n).isDigit = true := by
  unfold digitChar
  split_ifs <;> decide

lemma natDigitsAux_all_digit (fuel : Nat) :
    ∀ n, (natDigitsAux fuel n).all Char.isDigit = true := by
  induction fuel with
  | zero => intro n; rfl
  | succ f ih =>
    intro n
    unfold natDigitsAux
    split
    · simp [digitChar_isDigit]
    · simp [List.all_append, ih, digitChar_isDigit]

lemma natDigits_all_digit (n : Nat) :
    (natDigits n).all Char.isDigit = true :=
  natDigitsAux_all_digit (n + 1) n

lemma natDigitsAux_fuel_eq (n : Nat) :
    ∀ f1 f2, 0 < f1 → 0 < f2 → n < 10 ^ f1 → n < 10 ^ f2 →
      natDigitsAux f1 n = natDigitsAux f2 n := by
  induction n using Nat.strong_induction_on with
  | _ n ih =>
    intro f1 f2 h1 h2 hb1 hb2
    match f1, f2, h1, h2 with
    | a + 1, b + 1, _, _ =>
      unfold natDigitsAux
      by_cases hn : n < 10
      · simp [hn]
      · simp only [hn, if_false]
        congr 1
        have hdiv : n / 10 < n := Nat.div_lt_self (by omega) (by omega)
        have hpa : (10 : Nat) ^ (a + 1) = 10 ^ a * 10 := pow_succ 10 a
        have hpb : (10 : Nat) ^ (b + 1) = 10 ^ b * 10 := pow_succ 10 b
        have ha : 0 < a := by
          by_contra hc
          have ha0 : a = 0 := by omega
          subst ha0
          norm_num at hpa
          omega
        have hb : 0 < b := by
          by_contra hc
          have hb0 : b = 0 := by omega
          subst hb0
          norm_num at hpb
          omega
        exact ih (n / 10) hdiv a b ha hb (by omega) (by omega)

lemma natDigits_eq_fuel (n k : Nat) (hk : 0 < k) (hb : n < 10 ^ k) :
    natDigits n = natDigitsAux k n := by
  have hself : n < 10 ^ (n + 1) := by
    calc n < 10 ^ n := Nat.lt_pow_self (by omega) n
      _ ≤ 10 ^ (n + 1) := Nat.pow_le_pow_right (by omega) (by omega)
  exact natDigitsAux_fuel_eq n (n + 1) k (by omega) hk hself hb

lemma natDigitsAux_length (k : Nat) :
    ∀ n, 0 < k → n < 10 ^ k → (natDigitsAux k n).length ≤ k := by
  induction k with
  | zero => intro n h; omega
  | succ a ih =>
    intro n _ hb
    unfold natDigitsAux
    by_cases hn : n < 10
    · simp [hn]
    · simp only [hn, if_false, List.length_append]
      have hpa : (10 : Nat) ^ (a + 1) = 10 ^ a * 10 := pow_succ 10 a
      have ha : 0 < a := by
        by_contra hc
        have ha0 : a = 0 := by omega
        subst ha0
        norm_num at hpa
        omega
      have := ih (n / 10) ha (by omega)
      simp only [List.length_cons, List.length_nil]
      omega

lemma natDigits_length (n k : Nat) (hk : 0 < k) (hb : n < 10 ^ k) :
    (natDigits n).length ≤ k := by
  rw [natDigits_eq_fuel n k hk hb]
  exact natDigitsAux_length k n hk hb

lemma padNum_length (w n : Nat) (h : (natDigits n).length ≤ w) :
    (padNum w n).length = w := by
  unfold padNum
  rw [List.length_append, List.length_replicate]
  omega

lemma padNum_all_digit (w n : Nat) :
    (padNum w n).all Char.isDigit = true := by
  rw [List.all_eq_true]
  intro c hc
  rcases List.mem_append.mp hc with hc | hc
  · rw [List.eq_of_mem_replicate hc]
    decide
  · exact List.all_eq_true.mp (natDigits_all_digit n) c hc

lemma padNum2_length (n : Nat) (h : n < 100) : (padNum 2 n).length = 2 := by
  refine padNum_length 2 n (natDigits_length n 2 (by omega) ?_)
  norm_num
  omega

lemma padNum4_length (n : Nat) (h : n < 10000) : (padNum 4 n).length = 4 := by
  refine padNum_length 4 n (natDigits_length n 4 (by omega) ?_)
  norm_num
  omega

lemma addSeconds_sod_lt (dt : PyDateTime) (s : Nat) :
    (addSeconds dt s).sod < 86400 := by
  unfold addSeconds
  exact Nat.mod_lt _ (by omega)

lemma fmtHMS_length (sod : Nat) (h : sod < 86400) :
    (fmtHMS sod).length = 6 := by
  unfold fmtHMS
  rw [List.length_append, List.length_append]
  have h1 : sod / 3600 < 100 := by omega
  have h2 : sod % 3600 / 60 < 100 := by omega
  have h3 : sod % 60 < 100 := by omega
  rw [padNum2_length _ h1, padNum2_length _ h2, padNum2_length _ h3]

lemma fmtHMS_all_digit (sod : Nat) :
    (fmtHMS sod).all Char.isDigit = true := by
  unfold fmtHMS
  simp [List.all_append, padNum_all_digit]

lemma fmtYmd_length (d : PyDate) (hw : WFDate d) (hy : d.year < 10000) :
    (fmtYmd d).length = 8 := by
  obtain ⟨hm1, hm2, hd1, hd2⟩ := hw
  unfold fmtYmd
  rw [List.length_append, List.length_append]
  rw [padNum4_length _ hy, padNum2_length _ (by omega),
    padNum2_length _ (by omega)]

lemma fmtYmd_all_digit (d : PyDate) :
    (fmtYmd d).all Char.isDigit = true := by
  unfold fmtYmd
  simp [List.all_append, padNum_all_digit]

lemma daysInMonth_le (y m : Nat) : daysInMonth y m ≤ 31 := by
  unfold daysInMonth
  split_ifs <;> omega

lemma wf_nextDay (d : PyDate) (h : WFDate d) : WFDate (nextDay d) := by
  obtain ⟨hm1, hm2, hd1, hd2⟩ := h
  unfold nextDay
  have hdm := daysInMonth_le d.year d.month
  split_ifs with h1 h2
  · exact ⟨hm1, hm2, show 1 ≤ d.day + 1 by omega, show d.day + 1 ≤ 31 by omega⟩
  · exact ⟨show 1 ≤ d.month + 1 by omega, show d.month + 1 ≤ 12 by omega,
      show (1 : Nat) ≤ 1 by omega, show (1 : Nat) ≤ 31 by omega⟩
  · exact ⟨show (1 : Nat) ≤ 1 by omega, show (1 : Nat) ≤ 12 by omega,
      show (1 : Nat) ≤ 1 by omega, show (1 : Nat) ≤ 31 by omega⟩

lemma wf_addDays (n : Nat) :
    ∀ d, WFDate d → WFDate (addDays d n) := by
  induction n with
  | zero => intro d h; exact h
  | succ m ih =>
    intro d h
    exact ih (nextDay d) (wf_nextDay d h)

lemma wf_addSeconds_date (dt : PyDateTime) (s : Nat) (h : WFDate dt.date) :
    WFDate (addSeconds dt s).date :=
  wf_addDays _ dt.date h

/-- C8: at segment-open time the filename embeds the time-range label
computed from the open-time clock and the projected end (start plus the
configured duration clamped to at least one second — never the actual end);
the label consists of two six-digit blocks joined by a dash when start and
projected end share a calendar day, and of two fourteen-digit blocks when
the projected end crosses a day boundary. -/
theorem c8_time_range_label (ctx : RecorderCtx) (env : Env) (st : RecState)
    (fs : Fs) (h1 : env.mkdirRootOk = true) (h2 : env.mkdirDeviceOk = true)
    (h3 : env.openOk = true) (hclosed : st.wavFp = none)
    (hsod : env.now.sod < 86400) :
    (∃ st2 fs2 tr pre,
      ensure_segment_open ctx env st fs = .ok (st2, fs2, tr) ∧
      st2.wavPath = some (pre ++ '_' ::
        (timeRangeLabel env.now
          (addSeconds env.now (max ctx.config.segment_seconds 1).toNat) ++
         ".wav".toList))) ∧
    (env.now.date =
        (addSeconds env.now (max ctx.config.segment_seconds 1).toNat).date →
      ∃ a b, timeRangeLabel env.now
          (addSeconds env.now (max ctx.config.segment_seconds 1).toNat) =
            a ++ '-' :: b ∧
        a.length = 6 ∧ b.length = 6 ∧ (a ++ b).all Char.isDigit = true) ∧
    (env.now.date ≠
        (addSeconds env.now (max ctx.config.segment_seconds 1).toNat).date →
      WFDate env.now.date → env.now.date.year < 10000 →
      (addSeconds env.now (max ctx.config.segment_seconds 1).toNat).date.year
        < 10000 →
      ∃ a b, timeRangeLabel env.now
          (addSeconds env.now (max ctx.config.segment_seconds 1).toNat) =
            a ++ '-' :: b ∧
        a.length = 14 ∧ b.length = 14 ∧ (a ++ b).all Char.isDigit = true) := by
  refine ⟨?_, ?_, ?_⟩
  · unfold ensure_segment_open
    rw [hclosed]
    dsimp only []
    simp only [h1, h2, h3]
    refine ⟨_, _, _,
      pathJoin (pathJoin ctx.config.root_dir ctx.device_dir)
          (fmtDateDashed env.now.date) ++
        '/' :: (fmtTs env.now ++ '_' :: (intToStr env.epochNow ++
          '_' :: (ctx.session_id ++
            '_' :: natDigits st.segmentIndex))), rfl, ?_⟩
    simp [pathJoin, List.append_assoc]
  · intro hsame
    refine ⟨fmtHMS env.now.sod,
      fmtHMS (addSeconds env.now (max ctx.config.segment_seconds 1).toNat).sod,
      ?_, ?_, ?_, ?_⟩
    · unfold timeRangeLabel
      rw [if_neg (by simp [hsame])]
    · exact fmtHMS_length _ hsod
    · exact fmtHMS_length _ (addSeconds_sod_lt _ _)
    · simp [List.all_append, fmtHMS_all_digit]
  · intro hdiff hwf hy1 hy2
    refine ⟨fmtYmd env.now.date ++ fmtHMS env.now.sod,
      fmtYmd (addSeconds env.now (max ctx.config.segment_seconds 1).toNat).date ++
        fmtHMS (addSeconds env.now (max ctx.config.segment_seconds 1).toNat).sod,
      ?_, ?_, ?_, ?_⟩
    · unfold timeRangeLabel
      rw [if_pos hdiff]
    · rw [List.length_append, fmtYmd_length _ hwf hy1, fmtHMS_length _ hsod]
    · rw [List.length_append,
        fmtYmd_length _ (wf_addSeconds_date env.now _ hwf) hy2,
        fmtHMS_length _ (addSeconds_sod_lt _ _)]
    · simp [List.all_append, fmtHMS_all_digit, fmtYmd_all_digit]

/-- C8 witness: the theorem at a concrete clock one hour into 2026-10-12
(same-day projected end) and at a clock 30 seconds before midnight with a
180-second segment (projected end crosses into 2026-10-13). -/
theorem c8_time_range_label_witness :
    (∃ st2 fs2 tr pre,
      ensure_segment_open sampleRec.1 sampleEnv sampleRec.2 [] =
        .ok (st2, fs2, tr) ∧
      st2.wavPath = some (pre ++ '_' ::
        (timeRangeLabel sampleEnv.now
          (addSeconds sampleEnv.now
            (max sampleConfig.segment_seconds 1).toNat) ++ ".wav".toList))) ∧
    (∃ a b, timeRangeLabel sampleEnv.now
        (addSeconds sampleEnv.now (max sampleConfig.segment_seconds 1).toNat) =
          a ++ '-' :: b ∧
      a.length = 6 ∧ b.length = 6 ∧ (a ++ b).all Char.isDigit = true) ∧
    (∃ a b, timeRangeLabel (⟨⟨2026, 10, 12⟩, 86370⟩ : PyDateTime)
        (addSeconds (⟨⟨2026, 10, 12⟩, 86370⟩ : PyDateTime)
          (max sampleConfig.segment_seconds 1).toNat) =
          a ++ '-' :: b ∧
      a.length = 14 ∧ b.length = 14 ∧ (a ++ b).all Char.isDigit = true) := by
  have h := c8_time_range_label sampleRec.1 sampleEnv sampleRec.2 []
    rfl rfl rfl rfl (by decide)
  have hcross := c8_time_range_label sampleRec.1
    { sampleEnv with now := ⟨⟨2026, 10, 12⟩, 86370⟩ } sampleRec.2 []
    rfl rfl rfl rfl (by decide)
  exact ⟨h.1, h.2.1 (by decide),
    hcross.2.2 (by decide) (by unfold WFDate; decide) (by decide) (by decide)⟩

/-- C2 witness: the amended theorem applied to the all-whitespace input
`"  "` and to the mixed input `"a b"`. -/
theorem c2_sanitize_charset_witness :
    (sanitize_device_id "  ".toList = "unknown".toList) ∧
    ((sanitize_device_id "a b".toList).all isValidIdChar = true ∧
      sanitize_device_id "a b".toList ≠ []) := by
  refine ⟨(c2_sanitize_charset "  ".toList).2.2 (by decide),
    ⟨(c2_sanitize_charset "a b".toList).1, (c2_sanitize_charset "a b".toList).2.1⟩⟩

end AudioRec
